import Mathlib

/-!
Verification development for the GeeksStreaming-Radio management console.

The repository ships the React frontend (src/frontend/src/App.js), an
installation script, and documentation; the API service (`server:app`,
launched by install.sh) is not part of the sources.  Definitions below are
therefore of two kinds:

* frontend behaviour, translated directly from App.js (login, fetchWithAuth
  header construction, the billing-page aggregation, the stream-table
  controls);
* backend behaviour, modelled from the specification's words where the
  handler code itself is absent — each such definition carries a doc comment
  beginning with "Modelled from the spec:".

Monetary amounts are JavaScript numbers in the source; they are modelled as
rationals, which is exact for all the decimal literals the system handles.
-/

namespace RadioAdmin

/-- Stream status flag, the three-value set {stopped, running, error} from the
data model (spec section 3) and the frontend status rendering (App.js lines
1224-1242). -/
inductive StreamStatus where
  | stopped
  | running
  | error
deriving DecidableEq, Repr

/-- Billing record status: paid / pending / overdue (spec section 3). -/
inductive BillStatus where
  | pending
  | paid
  | overdue
deriving DecidableEq, Repr

/-- Client record, with the fields the frontend form submits (App.js
formData of ClientManagement, lines 652-662) plus server-assigned id and
status. -/
structure Client where
  id : String
  name : String
  email : String
  phone : String
  company : String
  max_streams : Nat
  max_listeners : Nat
  bandwidth_limit : Nat
  billing_plan : String
  monthly_fee : ℚ
  status : String
deriving DecidableEq, Repr

/-- Stream record, with the fields the frontend form submits (App.js
formData of StreamManagement, lines 1070-1080) plus server-assigned id and
status. -/
structure Stream where
  id : String
  client_id : String
  name : String
  description : String
  port : Nat
  mount_point : String
  bitrate : Nat
  max_listeners : Nat
  format : String
  auto_dj : Bool
  status : StreamStatus
deriving DecidableEq, Repr

/-- Billing record: a generated charge snapshot tied to a Client
(spec section 3). -/
structure BillingRecord where
  client_id : String
  amount : ℚ
  status : BillStatus
deriving DecidableEq, Repr

/-- The document store's persistent entities relevant to the claims. -/
structure Db where
  clients : List Client
  streams : List Stream
  bills : List BillingRecord
deriving DecidableEq, Repr

/-! ## Frontend definitions translated from App.js -/

/-- JavaScript template-literal interpolation of `localStorage.getItem`'s
result: the stored string when present, the text "null" when the key is
absent (App.js line 76 interpolates a possibly-null token). -/
def tokenString : Option String → String
  | some t => t
  | none => "null"

/-- Header object built by fetchWithAuth (App.js lines 70-80): Content-Type,
then Authorization, then the caller's options.headers spread last (so a later
duplicate key overrides an earlier one, as in a JS object literal). -/
def fetchWithAuthHeaders (storedToken : Option String)
    (optionHeaders : List (String × String)) : List (String × String) :=
  [("Content-Type", "application/json"),
   ("Authorization", "Bearer " ++ tokenString storedToken)] ++ optionHeaders

/-- Value a header key resolves to in a JS object literal: the last binding
of the key wins. -/
def headerValue (hs : List (String × String)) (k : String) : Option String :=
  (hs.reverse.find? (fun p => p.1 == k)).map (fun p => p.2)

/-- Result of the login HTTP exchange as the frontend observes it:
a successful response carrying access_token and user, a non-ok response,
or a thrown network error. -/
inductive LoginResponse where
  | ok (access_token : String) (user : String)
  | errResp
  | netError
deriving DecidableEq, Repr

/-- Frontend auth state: the token kept in localStorage and the React `user`
state. -/
structure AuthState where
  storedToken : Option String
  user : Option String
deriving DecidableEq, Repr

/-- The login function of App.js (lines 17-36): on response.ok it stores the
access token, sets the user state and returns true; on a non-ok response or
a thrown error it returns false without touching either. -/
def login (resp : LoginResponse) (st : AuthState) : AuthState × Bool :=
  match resp with
  | LoginResponse.ok tok u => ({ storedToken := some tok, user := some u }, true)
  | LoginResponse.errResp => (st, false)
  | LoginResponse.netError => (st, false)

/-- The two stream control actions the frontend can issue
(handleStreamControl, App.js lines 1125-1136). -/
inductive StreamAction where
  | start
  | stop
deriving DecidableEq, Repr

/-- Control button rendered in a stream-table row (App.js lines 1250-1270):
the conditional `stream.status === 'stopped'` selects the Start button, every
other status gets the Stop button. -/
def offeredControl (s : StreamStatus) : StreamAction :=
  if s = StreamStatus.stopped then StreamAction.start else StreamAction.stop

/-- Per-client billing summary attached by the billing endpoint; the frontend
reads billing_info?.latest_amount and billing_info?.status (App.js lines
1700-1701). -/
structure BillingInfo where
  latest_amount : ℚ
  status : BillStatus
deriving DecidableEq, Repr

/-- One row of the /api/billing/clients response as the Billing component
consumes it. -/
structure BillingRow where
  id : String
  name : String
  email : String
  billing_plan : String
  monthly_fee : ℚ
  billing_info : Option BillingInfo
deriving DecidableEq, Repr

/-- totalRevenue as the Billing component computes it (App.js line 1700):
reduce over the rows, adding billing_info?.latest_amount with 0 for a row
without billing info. -/
def totalRevenue (rows : List BillingRow) : ℚ :=
  rows.foldl (fun sum c => sum + ((c.billing_info.map BillingInfo.latest_amount).getD 0)) 0

/-- pendingBills as the Billing component computes it (App.js line 1701):
the number of rows whose billing_info?.status is 'pending'. -/
def pendingBills (rows : List BillingRow) : Nat :=
  (rows.filter (fun c =>
    match c.billing_info with
    | some bi => bi.status = BillStatus.pending
    | none => false)).length

/-! ## Backend operations, modelled from the spec

The API handlers (`server:app`) are not part of the repository sources;
each definition below reconstructs one handler from the specification's
words and is flagged as such. -/

/-- Client payload as submitted by the frontend form (App.js formData,
lines 652-662). -/
structure ClientPayload where
  name : String
  email : String
  phone : String
  company : String
  max_streams : Nat
  max_listeners : Nat
  bandwidth_limit : Nat
  billing_plan : String
  monthly_fee : ℚ
deriving DecidableEq, Repr

/-- Stream payload as submitted by the frontend form (App.js formData,
lines 1070-1080). -/
structure StreamPayload where
  client_id : String
  name : String
  description : String
  port : Nat
  mount_point : String
  bitrate : Nat
  max_listeners : Nat
  format : String
  auto_dj : Bool
deriving DecidableEq, Repr

/-- Modelled from the spec: GET of a single Client by id (the API service's
client read handler is absent from the sources); a lookup in the document
store. -/
def getClient (db : Db) (cid : String) : Option Client :=
  db.clients.find? (fun c => c.id == cid)

/-- Client record stored for a validated creation payload; a new client
starts active. -/
def clientOfPayload (newId : String) (p : ClientPayload) : Client :=
  { id := newId, name := p.name, email := p.email, phone := p.phone,
    company := p.company, max_streams := p.max_streams,
    max_listeners := p.max_listeners, bandwidth_limit := p.bandwidth_limit,
    billing_plan := p.billing_plan, monthly_fee := p.monthly_fee,
    status := "active" }

/-- Modelled from the spec: POST /api/clients (handler absent from the
sources).  Section 4.1 prescribes "uniqueness on contact email and basic
required-field validation" with name and email the required fields (the form
marks exactly those with *); a valid payload is inserted as a new active
Client. -/
def createClient (db : Db) (newId : String) (p : ClientPayload) : Except String Db :=
  if p.name = "" ∨ p.email = "" then
    Except.error "validation: missing required field"
  else if db.clients.any (fun c => c.email == p.email) then
    Except.error "validation: email already registered"
  else
    Except.ok { db with clients := db.clients ++ [clientOfPayload newId p] }

/-- Modelled from the spec: PUT /api/clients/id (handler absent from the
sources).  Same validation as creation, with the email-uniqueness check
ignoring the client being updated; the stored record keeps its id and
status and takes the payload's fields. -/
def updateClient (db : Db) (cid : String) (p : ClientPayload) : Except String Db :=
  if p.name = "" ∨ p.email = "" then
    Except.error "validation: missing required field"
  else if db.clients.any (fun c => c.id != cid && c.email == p.email) then
    Except.error "validation: email already registered"
  else
    Except.ok { db with clients := db.clients.map (fun c =>
      if c.id == cid then
        { c with name := p.name, email := p.email, phone := p.phone,
                 company := p.company, max_streams := p.max_streams,
                 max_listeners := p.max_listeners,
                 bandwidth_limit := p.bandwidth_limit,
                 billing_plan := p.billing_plan, monthly_fee := p.monthly_fee }
      else c) }

/-- Modelled from the spec: DELETE /api/clients/id (handler absent from the
sources).  "Deleting a Client removes it from subsequent list results";
the spec leaves the fate of the client's Streams open (section 9), so only
the client collection is touched. -/
def deleteClient (db : Db) (cid : String) : Db :=
  { db with clients := db.clients.filter (fun c => c.id != cid) }

/-- Number of Streams listed under a Client, as displayed by the frontend
as stream_count (App.js line 797). -/
def streamCount (db : Db) (cid : String) : Nat :=
  (db.streams.filter (fun s => s.client_id == cid)).length

/-- Stream record stored for a validated creation payload; a new stream
starts stopped ("status transitions only via explicit start/stop"). -/
def streamOfPayload (newId : String) (p : StreamPayload) : Stream :=
  { id := newId, client_id := p.client_id, name := p.name,
    description := p.description, port := p.port, mount_point := p.mount_point,
    bitrate := p.bitrate, max_listeners := p.max_listeners, format := p.format,
    auto_dj := p.auto_dj, status := StreamStatus.stopped }

/-- Modelled from the spec: POST /api/clients/client_id/streams (handler
absent from the sources).  Section 3's invariants: the stream's client
reference must point to an existing Client, and the client's stream count
must not exceed max_streams, enforced at creation time. -/
def createStream (db : Db) (newId : String) (p : StreamPayload) : Except String Db :=
  match getClient db p.client_id with
  | none => Except.error "validation: client not found"
  | some c =>
    if c.max_streams ≤ streamCount db p.client_id then
      Except.error "validation: maximum streams reached"
    else
      Except.ok { db with streams := db.streams ++ [streamOfPayload newId p] }

/-- Modelled from the spec: PUT /api/streams/id (handler absent from the
sources).  CRUD update of the stream's configuration fields; id, owning
client (the frontend disables the client selector when editing) and status
are kept. -/
def updateStream (db : Db) (sid : String) (p : StreamPayload) : Db :=
  { db with streams := db.streams.map (fun s =>
    if s.id == sid then
      { s with name := p.name, description := p.description, port := p.port,
               mount_point := p.mount_point, bitrate := p.bitrate,
               max_listeners := p.max_listeners, format := p.format,
               auto_dj := p.auto_dj }
    else s) }

/-- Modelled from the spec: DELETE /api/streams/id (handler absent from the
sources); removes the stream record. -/
def deleteStream (db : Db) (sid : String) : Db :=
  { db with streams := db.streams.filter (fun s => s.id != sid) }

/-- Modelled from the spec: effect of a start or stop action on a stream's
status flag.  "Starting a stopped Stream transitions its status to running;
stopping a running Stream transitions it to stopped; invalid transitions
... are idempotent or rejected consistently" — the model takes the
idempotent branch uniformly: start always yields running, stop always
yields stopped. -/
def applyAction : StreamAction → StreamStatus → StreamStatus
  | StreamAction.start, _ => StreamStatus.running
  | StreamAction.stop, _ => StreamStatus.stopped

/-- Modelled from the spec: POST /api/streams/id/start and .../stop
(handlers absent from the sources); the remote daemon call is followed by a
local status update of the addressed stream. -/
def controlStream (db : Db) (sid : String) (a : StreamAction) : Db :=
  { db with streams := db.streams.map (fun s =>
    if s.id == sid then { s with status := applyAction a s.status } else s) }

/-- Modelled from the spec: POST /api/billing/generate/client_id (handler
absent from the sources).  Section 4.4: "creates a new billing record for a
Client using its configured monthly fee ... purely a row insert with a
timestamp and status default", the default status being pending. -/
def generateBill (db : Db) (cid : String) : Except String Db :=
  match getClient db cid with
  | none => Except.error "validation: client not found"
  | some c =>
    Except.ok { db with bills := db.bills ++
      [{ client_id := cid, amount := c.monthly_fee, status := BillStatus.pending }] }

/-- Modelled from the spec: a Client's latest billing record.  Billing
records are append-only (section 3), so the latest one is the last inserted
for that client. -/
def latestBill (bills : List BillingRecord) (cid : String) : Option BillingRecord :=
  (bills.filter (fun b => b.client_id == cid)).getLast?

/-- Modelled from the spec: rows of GET /api/billing/clients (handler absent
from the sources) — each client together with a summary of its latest
billing record, as the Billing component consumes them. -/
def billingRows (db : Db) : List BillingRow :=
  db.clients.map (fun c =>
    { id := c.id, name := c.name, email := c.email,
      billing_plan := c.billing_plan, monthly_fee := c.monthly_fee,
      billing_info := (latestBill db.bills c.id).map
        (fun b => { latest_amount := b.amount, status := b.status }) })

/-- Sum of all billing record amounts, the quantity named by the spec's
dashboard-aggregation sentence ("sum of billing amounts", section 4.3);
stated from the spec's words for comparison with the frontend computation. -/
def sumAllBillAmounts (bills : List BillingRecord) : ℚ :=
  (bills.map BillingRecord.amount).sum

/-- Modelled from the spec: the API's bearer-token check (handlers absent
from the sources).  Section 7: authorization failures — a missing or
invalid token — are answered as unauthorized; a request passes when its
Authorization header is "Bearer " followed by a currently valid token. -/
def authorize (validTokens : List String) (authHeader : Option String) :
    Except String Unit :=
  match authHeader with
  | none => Except.error "unauthorized"
  | some h =>
    if validTokens.any (fun t => h == "Bearer " ++ t) then Except.ok ()
    else Except.error "unauthorized"

/-- One API write operation, used to state that stream status changes only
through the control actions. -/
inductive BackendOp where
  | createClientOp (newId : String) (p : ClientPayload)
  | updateClientOp (cid : String) (p : ClientPayload)
  | deleteClientOp (cid : String)
  | createStreamOp (newId : String) (p : StreamPayload)
  | updateStreamOp (sid : String) (p : StreamPayload)
  | deleteStreamOp (sid : String)
  | controlStreamOp (sid : String) (a : StreamAction)
  | generateBillOp (cid : String)
deriving DecidableEq, Repr

/-- A rejected request leaves the store unchanged. -/
def orKeep (r : Except String Db) (db : Db) : Db :=
  match r with
  | Except.ok d => d
  | Except.error _ => db

/-- The store after one API write operation. -/
def stepDb (op : BackendOp) (db : Db) : Db :=
  match op with
  | BackendOp.createClientOp newId p => orKeep (createClient db newId p) db
  | BackendOp.updateClientOp cid p => orKeep (updateClient db cid p) db
  | BackendOp.deleteClientOp cid => deleteClient db cid
  | BackendOp.createStreamOp newId p => orKeep (createStream db newId p) db
  | BackendOp.updateStreamOp sid p => updateStream db sid p
  | BackendOp.deleteStreamOp sid => deleteStream db sid
  | BackendOp.controlStreamOp sid a => controlStream db sid a
  | BackendOp.generateBillOp cid => orKeep (generateBill db cid) db

/-- Concrete Client record used to instantiate theorems on small stores
(phone, company, listener and bandwidth limits fixed to the form's
defaults). -/
def mkClient (cid nm em : String) (maxStreams : Nat) (fee : ℚ) : Client :=
  { id := cid, name := nm, email := em, phone := "", company := "",
    max_streams := maxStreams, max_listeners := 100, bandwidth_limit := 128,
    billing_plan := "basic", monthly_fee := fee, status := "active" }

/-- Concrete client payload used to instantiate theorems (other fields
fixed to the frontend form's defaults). -/
def mkPayload (nm em : String) : ClientPayload :=
  { name := nm, email := em, phone := "", company := "", max_streams := 1,
    max_listeners := 100, bandwidth_limit := 128, billing_plan := "basic",
    monthly_fee := 0 }

/-- Concrete stream record used to instantiate theorems. -/
def mkStream (sid cid : String) (st : StreamStatus) : Stream :=
  { id := sid, client_id := cid, name := "S", description := "", port := 8000,
    mount_point := "/stream", bitrate := 128, max_listeners := 100,
    format := "mp3", auto_dj := false, status := st }

/-- Distinct stored Clients carry distinct contact emails. -/
def EmailsUnique (db : Db) : Prop :=
  db.clients.Pairwise (fun a b => a.email ≠ b.email)

/-- Distinct stored Clients carry distinct ids. -/
def IdsUnique (db : Db) : Prop :=
  db.clients.Pairwise (fun a b => a.id ≠ b.id)

/-! ## Helper lemmas -/

theorem find?_append_of_forall_false {α : Type} (l₁ l₂ : List α) (p : α → Bool)
    (h : ∀ x ∈ l₁, p x = false) : (l₁ ++ l₂).find? p = l₂.find? p := by
  induction l₁ with
  | nil => rfl
  | cons a l ih =>
    rw [List.cons_append, List.find?_cons_of_neg]
    · exact ih fun x hx => h x (List.mem_cons_of_mem a hx)
    · simp [h a (List.mem_cons_self a l)]

theorem getClient_append_fresh (db : Db) (l : List Client) (c : Client)
    (h : ∀ x ∈ l, x.id ≠ c.id) :
    getClient { db with clients := l ++ [c] } c.id = some c := by
  show (l ++ [c]).find? (fun x => x.id == c.id) = some c
  rw [find?_append_of_forall_false _ _ _ (fun x hx => by simp [h x hx])]
  rw [List.find?_cons_of_pos _ (by simp)]

/-! ## Claims -/

/-- C8: every request issued through fetchWithAuth carries an Authorization
header equal to "Bearer " followed by the token read from localStorage at
call time; with no stored token the header value is the literal
"Bearer null"; and (backend modelled from the spec) a request with a missing
or invalid token is answered as unauthorized. -/
theorem spec2_c8 (tok : Option String) (opts : List (String × String))
    (hopts : ∀ q ∈ opts, q.1 ≠ "Authorization") :
    headerValue (fetchWithAuthHeaders tok opts) "Authorization"
      = some ("Bearer " ++ tokenString tok)
    ∧ (tok = none →
        headerValue (fetchWithAuthHeaders tok opts) "Authorization"
          = some "Bearer null")
    ∧ (∀ (validTokens : List String) (header : Option String),
        (header = none ∨ ∀ t ∈ validTokens, header ≠ some ("Bearer " ++ t)) →
        authorize validTokens header = Except.error "unauthorized") := by
  have hmain : headerValue (fetchWithAuthHeaders tok opts) "Authorization"
      = some ("Bearer " ++ tokenString tok) := by
    unfold headerValue fetchWithAuthHeaders
    rw [List.reverse_append]
    rw [find?_append_of_forall_false]
    · rfl
    · intro q hq
      simp only [List.mem_reverse] at hq
      simp [hopts q hq]
  refine ⟨hmain, fun htok => by rw [hmain, htok]; rfl, ?_⟩
  intro validTokens header hbad
  match header with
  | none => rfl
  | some h =>
    rcases hbad with hbad | hbad
    · exact absurd hbad (by simp)
    · have hfalse : (validTokens.any fun t => h == "Bearer " ++ t) = false := by
        simp only [List.any_eq_false]
        intro t ht
        have := hbad t ht
        simp only [ne_eq, Option.some.injEq] at this
        simp [this]
      simp [authorize, hfalse]

/-- Closed instance of spec2_c8: with no stored token the header reads
"Bearer null", and such a request is rejected as unauthorized when "null"
is not among the valid tokens. -/
theorem spec2_c8_witness :
    headerValue (fetchWithAuthHeaders none [("Accept", "application/json")])
      "Authorization" = some "Bearer null"
    ∧ authorize ["secret-token"] (some "Bearer null")
      = Except.error "unauthorized" := by
  have h := spec2_c8 none [("Accept", "application/json")]
    (by intro q hq; simp at hq; subst hq; decide)
  exact ⟨h.2.1 rfl, h.2.2 ["secret-token"] (some "Bearer null")
    (Or.inr (by intro t ht; simp at ht; rw [ht]; decide))⟩

/-- C9: the frontend login stores an access token and sets the user state
exactly when the response is ok; on a failed response or network error it
returns false and leaves localStorage and the user state unchanged. -/
theorem spec2_c9 (resp : LoginResponse) (st : AuthState) :
    ((login resp st).2 = true ↔ ∃ tok u, resp = LoginResponse.ok tok u)
    ∧ (∀ tok u, resp = LoginResponse.ok tok u →
        (login resp st).1 = { storedToken := some tok, user := some u })
    ∧ ((∀ tok u, resp ≠ LoginResponse.ok tok u) →
        (login resp st).2 = false ∧ (login resp st).1 = st) := by
  refine ⟨?_, ?_, ?_⟩
  · cases resp <;> simp [login]
  · intro tok u h
    subst h
    rfl
  · intro h
    cases resp with
    | ok tok u => exact absurd rfl (h tok u)
    | errResp => exact ⟨rfl, rfl⟩
    | netError => exact ⟨rfl, rfl⟩

/-- Closed instance of spec2_c9: a successful login stores the token and
user, a network error changes nothing and reports false. -/
theorem spec2_c9_witness :
    (login (LoginResponse.ok "tok123" "admin") ⟨none, none⟩).1
      = { storedToken := some "tok123", user := some "admin" }
    ∧ (login LoginResponse.netError ⟨some "old", some "u"⟩).2 = false
    ∧ (login LoginResponse.netError ⟨some "old", some "u"⟩).1
      = ⟨some "old", some "u"⟩ := by
  refine ⟨(spec2_c9 _ ⟨none, none⟩).2.1 "tok123" "admin" rfl, ?_⟩
  have h := (spec2_c9 LoginResponse.netError ⟨some "old", some "u"⟩).2.2
    (fun tok u h => by cases h)
  exact ⟨h.1, h.2⟩

/-- C10: the stream table offers the Start control exactly when the stream's
status is stopped, and the Stop control for running and error; the UI never
issues start for a stream displayed as running or error. -/
theorem spec2_c10 (s : StreamStatus) :
    (offeredControl s = StreamAction.start ↔ s = StreamStatus.stopped)
    ∧ ((s = StreamStatus.running ∨ s = StreamStatus.error) →
        offeredControl s = StreamAction.stop) := by
  cases s <;> simp [offeredControl]

/-- Closed instance of spec2_c10: a stopped stream gets Start, running and
error streams get Stop. -/
theorem spec2_c10_witness :
    offeredControl StreamStatus.stopped = StreamAction.start
    ∧ offeredControl StreamStatus.running = StreamAction.stop
    ∧ offeredControl StreamStatus.error = StreamAction.stop := by
  exact ⟨(spec2_c10 StreamStatus.stopped).1.mpr rfl,
    (spec2_c10 StreamStatus.running).2 (Or.inl rfl),
    (spec2_c10 StreamStatus.error).2 (Or.inr rfl)⟩

/-- C2: generating a billing record for a Client appends exactly one new
record whose amount is the client's configured monthly_fee and whose status
is pending; no existing record, client or stream is modified. -/
theorem spec2_c2 (db : Db) (cid : String) (c : Client)
    (hc : getClient db cid = some c) :
    ∃ db', generateBill db cid = Except.ok db'
      ∧ db'.bills = db.bills ++
          [{ client_id := cid, amount := c.monthly_fee, status := BillStatus.pending }]
      ∧ db'.bills.length = db.bills.length + 1
      ∧ (∀ b ∈ db.bills, b ∈ db'.bills)
      ∧ db'.clients = db.clients ∧ db'.streams = db.streams := by
  refine ⟨{ db with bills := db.bills ++
      [{ client_id := cid, amount := c.monthly_fee, status := BillStatus.pending }] },
    ?_, rfl, by simp, ?_, rfl, rfl⟩
  · unfold generateBill
    rw [hc]
  · intro b hb
    simp [hb]

/-- Closed instance of spec2_c2: for a client with monthly_fee 29.99 the
generated record has amount 29.99 and status pending. -/
theorem spec2_c2_witness :
    ∃ db', generateBill ⟨[mkClient "c1" "Acme" "a@acme.com" 2 (2999/100)], [], []⟩
        "c1" = Except.ok db'
      ∧ db'.bills
        = [{ client_id := "c1", amount := 2999/100, status := BillStatus.pending }] := by
  obtain ⟨db', hok, hbills, -, -, -, -⟩ :=
    spec2_c2 ⟨[mkClient "c1" "Acme" "a@acme.com" 2 (2999/100)], [], []⟩ "c1"
      (mkClient "c1" "Acme" "a@acme.com" 2 (2999/100)) rfl
  exact ⟨db', hok, by simpa [mkClient] using hbills⟩

/-- C3: creating a Client and then fetching it returns a Client whose
name, email, phone, company, max_streams, max_listeners, bandwidth_limit,
billing_plan and monthly_fee are the values submitted at creation. -/
theorem spec2_c3 (db : Db) (newId : String) (p : ClientPayload) (db' : Db)
    (hok : createClient db newId p = Except.ok db')
    (hfresh : ∀ c ∈ db.clients, c.id ≠ newId) :
    ∃ c, getClient db' newId = some c
      ∧ c.name = p.name ∧ c.email = p.email ∧ c.phone = p.phone
      ∧ c.company = p.company ∧ c.max_streams = p.max_streams
      ∧ c.max_listeners = p.max_listeners
      ∧ c.bandwidth_limit = p.bandwidth_limit
      ∧ c.billing_plan = p.billing_plan ∧ c.monthly_fee = p.monthly_fee := by
  unfold createClient at hok
  split at hok
  · exact absurd hok (by simp)
  · split at hok
    · exact absurd hok (by simp)
    · injection hok with hok
      subst hok
      exact ⟨_, getClient_append_fresh db db.clients _ hfresh,
        rfl, rfl, rfl, rfl, rfl, rfl, rfl, rfl, rfl⟩

/-- Closed instance of spec2_c3: a client created on an empty store is
fetched back with the submitted field values. -/
theorem spec2_c3_witness :
    ∃ c, getClient ⟨[mkClient "id1" "Acme" "a@acme.com" 2 (2999/100)], [], []⟩
        "id1" = some c
      ∧ c.name = "Acme" ∧ c.email = "a@acme.com"
      ∧ c.max_streams = 2 ∧ c.monthly_fee = 2999/100 := by
  obtain ⟨c, hc, h1, h2, -, -, h5, -, -, -, h9⟩ := spec2_c3 ⟨[], [], []⟩ "id1"
    { name := "Acme", email := "a@acme.com", phone := "", company := "",
      max_streams := 2, max_listeners := 100, bandwidth_limit := 128,
      billing_plan := "basic", monthly_fee := 2999/100 }
    _ rfl (by intro c hc; simp at hc)
  exact ⟨c, hc, h1, h2, h5, h9⟩

/-- C6: after a successful delete of a Client, that Client no longer appears
in a subsequent list of clients; every other Client remains listed
unchanged, and no stray record is introduced. -/
theorem spec2_c6 (db : Db) (cid : String) :
    (∀ c ∈ (deleteClient db cid).clients, c.id ≠ cid)
    ∧ (∀ c ∈ db.clients, c.id ≠ cid → c ∈ (deleteClient db cid).clients)
    ∧ (∀ c ∈ (deleteClient db cid).clients, c ∈ db.clients)
    ∧ (deleteClient db cid).streams = db.streams
    ∧ (deleteClient db cid).bills = db.bills := by
  refine ⟨?_, ?_, ?_, rfl, rfl⟩
  · intro c hc
    simp only [deleteClient, List.mem_filter, bne_iff_ne, ne_eq] at hc
    exact hc.2
  · intro c hc hne
    simp only [deleteClient, List.mem_filter, bne_iff_ne, ne_eq]
    exact ⟨hc, hne⟩
  · intro c hc
    exact (List.mem_filter.mp hc).1

/-- Closed instance of spec2_c6: deleting client c1 from a two-client store
removes c1 from the listing and keeps c2. -/
theorem spec2_c6_witness :
    mkClient "c1" "A" "a@x.com" 1 0 ∉
      (deleteClient ⟨[mkClient "c1" "A" "a@x.com" 1 0,
        mkClient "c2" "B" "b@x.com" 1 0], [], []⟩ "c1").clients
    ∧ mkClient "c2" "B" "b@x.com" 1 0 ∈
      (deleteClient ⟨[mkClient "c1" "A" "a@x.com" 1 0,
        mkClient "c2" "B" "b@x.com" 1 0], [], []⟩ "c1").clients := by
  constructor
  · intro h
    exact (spec2_c6 ⟨[mkClient "c1" "A" "a@x.com" 1 0,
      mkClient "c2" "B" "b@x.com" 1 0], [], []⟩ "c1").1 _ h rfl
  · exact (spec2_c6 ⟨[mkClient "c1" "A" "a@x.com" 1 0,
      mkClient "c2" "B" "b@x.com" 1 0], [], []⟩ "c1").2.1 _ (by simp)
      (by simp [mkClient])

/-- C4: Streams are created only under an existing Client with spare
capacity: creation for a Client already holding max_streams Streams is
rejected, and a successful creation raises that Client's stream count by
exactly one, keeps it within max_streams, leaves every other Client's count
unchanged, and puts the new Stream into the global stream list. -/
theorem spec2_c4 (db : Db) (newId : String) (p : StreamPayload) (c : Client)
    (hc : getClient db p.client_id = some c) :
    (c.max_streams ≤ streamCount db p.client_id →
      createStream db newId p = Except.error "validation: maximum streams reached")
    ∧ (∀ db', createStream db newId p = Except.ok db' →
        streamCount db' p.client_id = streamCount db p.client_id + 1
        ∧ streamCount db' p.client_id ≤ c.max_streams
        ∧ (∀ cid, cid ≠ p.client_id → streamCount db' cid = streamCount db cid)
        ∧ streamOfPayload newId p ∈ db'.streams) := by
  constructor
  · intro hfull
    unfold createStream
    rw [hc]
    show (if c.max_streams ≤ streamCount db p.client_id then
        (Except.error "validation: maximum streams reached" : Except String Db)
      else Except.ok { db with streams := db.streams ++ [streamOfPayload newId p] })
      = Except.error "validation: maximum streams reached"
    exact if_pos hfull
  · intro db' hok
    unfold createStream at hok
    rw [hc] at hok
    have hok' : (if c.max_streams ≤ streamCount db p.client_id then
        (Except.error "validation: maximum streams reached" : Except String Db)
      else Except.ok { db with streams := db.streams ++ [streamOfPayload newId p] })
        = Except.ok db' := hok
    split at hok'
    · exact absurd hok' (by simp)
    · rename_i hroom
      injection hok' with hok'
      subst hok'
      have hcount : streamCount
          { db with streams := db.streams ++ [streamOfPayload newId p] }
            p.client_id = streamCount db p.client_id + 1 := by
        simp [streamCount, List.filter_append, streamOfPayload]
      refine ⟨hcount, ?_, ?_, by simp⟩
      · omega
      · intro cid hne
        have hfalse : (p.client_id == cid) = false := by
          simp [Ne.symm hne]
        simp [streamCount, List.filter_append, streamOfPayload, hfalse]

/-- Closed instance of spec2_c4, the section 8 scenario: a Client with
max_streams 2 and no Streams accepts a Stream on port 8010 at 128 kbps mp3,
after which its stream count is 1 and the Stream is listed globally. -/
theorem spec2_c4_witness :
    streamCount
      { (⟨[mkClient "c1" "Acme" "a@acme.com" 2 0], [], []⟩ : Db) with
        streams := ([] : List Stream) ++
          [streamOfPayload "s1"
            { client_id := "c1", name := "Acme FM", description := "",
              port := 8010, mount_point := "/stream", bitrate := 128,
              max_listeners := 100, format := "mp3", auto_dj := false }] }
      "c1" = 1
    ∧ streamOfPayload "s1"
        { client_id := "c1", name := "Acme FM", description := "",
          port := 8010, mount_point := "/stream", bitrate := 128,
          max_listeners := 100, format := "mp3", auto_dj := false } ∈
      ({ (⟨[mkClient "c1" "Acme" "a@acme.com" 2 0], [], []⟩ : Db) with
        streams := ([] : List Stream) ++
          [streamOfPayload "s1"
            { client_id := "c1", name := "Acme FM", description := "",
              port := 8010, mount_point := "/stream", bitrate := 128,
              max_listeners := 100, format := "mp3", auto_dj := false }] } : Db).streams := by
  have h := (spec2_c4 ⟨[mkClient "c1" "Acme" "a@acme.com" 2 0], [], []⟩ "s1"
    { client_id := "c1", name := "Acme FM", description := "", port := 8010,
      mount_point := "/stream", bitrate := 128, max_listeners := 100,
      format := "mp3", auto_dj := false }
    (mkClient "c1" "Acme" "a@acme.com" 2 0) rfl).2 _ rfl
  exact ⟨h.1, h.2.2.2⟩

/-- C5: client records are unique on contact email — creating with a
missing required field (name or email, the fields the form marks required)
fails with a validation error, creating with an email already used fails,
updating to an email used by another client fails, and email uniqueness is
preserved by every successful create and update. -/
theorem spec2_c5 (db : Db) (newId cid : String) (p : ClientPayload) :
    ((p.name = "" ∨ p.email = "") →
      createClient db newId p = Except.error "validation: missing required field")
    ∧ ((∃ c ∈ db.clients, c.email = p.email) →
        ∃ e, createClient db newId p = Except.error e)
    ∧ (p.name ≠ "" → p.email ≠ "" →
        (∃ c ∈ db.clients, c.id ≠ cid ∧ c.email = p.email) →
        updateClient db cid p = Except.error "validation: email already registered")
    ∧ (EmailsUnique db → ∀ db', createClient db newId p = Except.ok db' →
        EmailsUnique db')
    ∧ (EmailsUnique db → IdsUnique db → ∀ db',
        updateClient db cid p = Except.ok db' → EmailsUnique db') := by
  refine ⟨?_, ?_, ?_, ?_, ?_⟩
  · intro hmiss
    unfold createClient
    rw [if_pos hmiss]
  · rintro ⟨c, hcmem, hcem⟩
    unfold createClient
    split
    · exact ⟨_, rfl⟩
    · rw [if_pos]
      · exact ⟨_, rfl⟩
      · simp only [List.any_eq_true]
        exact ⟨c, hcmem, by simp [hcem]⟩
  · rintro hn he ⟨c, hcmem, hcid, hcem⟩
    unfold updateClient
    rw [if_neg (by simp [hn, he])]
    rw [if_pos]
    simp only [List.any_eq_true]
    exact ⟨c, hcmem, by simp [hcid, hcem]⟩
  · intro hU db' hok
    unfold createClient at hok
    split at hok
    · exact absurd hok (by simp)
    · split at hok
      · exact absurd hok (by simp)
      · rename_i hnomiss hnodup
        injection hok with hok
        subst hok
        show (db.clients ++ [clientOfPayload newId p]).Pairwise
          (fun a b => a.email ≠ b.email)
        rw [List.pairwise_append]
        refine ⟨hU, List.pairwise_singleton _ _, ?_⟩
        intro a ha b hb
        rw [Bool.not_eq_true, List.any_eq_false] at hnodup
        have := hnodup a ha
        simp only [beq_iff_eq] at this
        have hb' : b = clientOfPayload newId p := by simpa using hb
        subst hb'
        exact this
  · intro hU hI db' hok
    unfold updateClient at hok
    split at hok
    · exact absurd hok (by simp)
    · split at hok
      · exact absurd hok (by simp)
      · rename_i hnomiss hnodup
        injection hok with hok
        subst hok
        show List.Pairwise (fun a b : Client => a.email ≠ b.email)
          (db.clients.map (fun c =>
            if c.id == cid then
              { c with name := p.name, email := p.email, phone := p.phone,
                       company := p.company, max_streams := p.max_streams,
                       max_listeners := p.max_listeners,
                       bandwidth_limit := p.bandwidth_limit,
                       billing_plan := p.billing_plan,
                       monthly_fee := p.monthly_fee }
            else c))
        rw [List.pairwise_map]
        rw [Bool.not_eq_true, List.any_eq_false] at hnodup
        unfold EmailsUnique at hU
        unfold IdsUnique at hI
        have hsafe : ∀ x ∈ db.clients, x.id ≠ cid → x.email ≠ p.email := by
          intro x hx hxid hxem
          have hx2 := hnodup x hx
          rw [show (x.id != cid) = true by simp [hxid],
            show (x.email == p.email) = true by simp [hxem]] at hx2
          simp at hx2
        refine List.Pairwise.imp_of_mem ?_ (hU.and hI)
        intro a b ha hb hab
        by_cases h1 : a.id = cid
        · by_cases h2 : b.id = cid
          · exact absurd (h1.trans h2.symm) hab.2
          · simp [h1, h2]
            exact (hsafe b hb h2).symm
        · by_cases h2 : b.id = cid
          · simp [h1, h2]
            exact hsafe a ha h1
          · simp [h1, h2]
            exact hab.1

/-- Closed instance of spec2_c5: creating a second client with an email
already registered fails, creating with an empty name fails, and a
successful create on a one-client store keeps emails unique. -/
theorem spec2_c5_witness :
    (∃ e, createClient ⟨[mkClient "c1" "A" "a@x.com" 1 0], [], []⟩ "c2"
      (mkPayload "B" "a@x.com") = Except.error e)
    ∧ createClient ⟨[mkClient "c1" "A" "a@x.com" 1 0], [], []⟩ "c2"
      (mkPayload "" "b@x.com") = Except.error "validation: missing required field"
    ∧ EmailsUnique ⟨[mkClient "c1" "A" "a@x.com" 1 0,
        clientOfPayload "c2" (mkPayload "B" "b@x.com")], [], []⟩ := by
  refine ⟨?_, ?_, ?_⟩
  · exact (spec2_c5 ⟨[mkClient "c1" "A" "a@x.com" 1 0], [], []⟩ "c2" "c1"
      (mkPayload "B" "a@x.com")).2.1 ⟨mkClient "c1" "A" "a@x.com" 1 0, by simp, rfl⟩
  · exact (spec2_c5 ⟨[mkClient "c1" "A" "a@x.com" 1 0], [], []⟩ "c2" "c1"
      (mkPayload "" "b@x.com")).1 (Or.inl rfl)
  · exact (spec2_c5 ⟨[mkClient "c1" "A" "a@x.com" 1 0], [], []⟩ "c2" "c1"
      (mkPayload "B" "b@x.com")).2.2.2.1
      (by unfold EmailsUnique; exact List.pairwise_singleton _ _) _ rfl

theorem stepDb_createClient_streams (db : Db) (n : String) (p : ClientPayload) :
    (stepDb (BackendOp.createClientOp n p) db).streams = db.streams := by
  show (orKeep (createClient db n p) db).streams = db.streams
  unfold createClient
  split
  · rfl
  · split
    · rfl
    · rfl

theorem stepDb_updateClient_streams (db : Db) (cid : String) (p : ClientPayload) :
    (stepDb (BackendOp.updateClientOp cid p) db).streams = db.streams := by
  show (orKeep (updateClient db cid p) db).streams = db.streams
  unfold updateClient
  split
  · rfl
  · split
    · rfl
    · rfl

theorem stepDb_generateBill_streams (db : Db) (cid : String) :
    (stepDb (BackendOp.generateBillOp cid) db).streams = db.streams := by
  show (orKeep (generateBill db cid) db).streams = db.streams
  unfold generateBill
  split
  · rfl
  · rfl

theorem mem_stepDb_createStream (db : Db) (n : String) (p : StreamPayload)
    (s' : Stream) (h : s' ∈ (stepDb (BackendOp.createStreamOp n p) db).streams) :
    s' ∈ db.streams ∨ s' = streamOfPayload n p := by
  have h' : s' ∈ (orKeep (createStream db n p) db).streams := h
  unfold createStream at h'
  split at h'
  · exact Or.inl h'
  · split at h'
    · exact Or.inl h'
    · have h'' : s' ∈ db.streams ++ [streamOfPayload n p] := h'
      rcases List.mem_append.mp h'' with h3 | h3
      · exact Or.inl h3
      · exact Or.inr (by simpa using h3)

/-- C1: the start action drives the addressed stream's status to running and
the stop action to stopped; re-issuing an action on a stream already in the
target status leaves the status unchanged (the idempotent branch, applied
uniformly); a control action touches no other stream; and no other API
operation changes any stream's status (a stream after any non-control
operation either keeps the status it had under its id, or is newly created
in the stopped status). -/
theorem spec2_c1 (db : Db) (sid : String) (a : StreamAction) :
    (∀ s' ∈ (controlStream db sid StreamAction.start).streams,
        s'.id = sid → s'.status = StreamStatus.running)
    ∧ (∀ s' ∈ (controlStream db sid StreamAction.stop).streams,
        s'.id = sid → s'.status = StreamStatus.stopped)
    ∧ (applyAction StreamAction.start StreamStatus.running = StreamStatus.running
        ∧ applyAction StreamAction.stop StreamStatus.stopped = StreamStatus.stopped)
    ∧ (∀ s' ∈ (controlStream db sid a).streams, s'.id ≠ sid → s' ∈ db.streams)
    ∧ (∀ op : BackendOp, (∀ sid' a', op ≠ BackendOp.controlStreamOp sid' a') →
        ∀ s' ∈ (stepDb op db).streams,
          (∃ s ∈ db.streams, s.id = s'.id ∧ s.status = s'.status)
          ∨ s'.status = StreamStatus.stopped) := by
  refine ⟨?_, ?_, ⟨rfl, rfl⟩, ?_, ?_⟩
  · intro s' hs' hid
    obtain ⟨s, hs, rfl⟩ := List.mem_map.mp hs'
    by_cases h : s.id = sid
    · simp [h, applyAction]
    · simp [h] at hid
  · intro s' hs' hid
    obtain ⟨s, hs, rfl⟩ := List.mem_map.mp hs'
    by_cases h : s.id = sid
    · simp [h, applyAction]
    · simp [h] at hid
  · intro s' hs' hne
    obtain ⟨s, hs, rfl⟩ := List.mem_map.mp hs'
    by_cases h : s.id = sid
    · rw [if_pos (by simp [h])] at hne
      exact absurd h hne
    · rw [if_neg (by simp [h])]
      exact hs
  · intro op hop s' hs'
    cases op with
    | createClientOp n p =>
      rw [stepDb_createClient_streams] at hs'
      exact Or.inl ⟨s', hs', rfl, rfl⟩
    | updateClientOp cid p =>
      rw [stepDb_updateClient_streams] at hs'
      exact Or.inl ⟨s', hs', rfl, rfl⟩
    | deleteClientOp cid =>
      exact Or.inl ⟨s', hs', rfl, rfl⟩
    | createStreamOp n p =>
      rcases mem_stepDb_createStream db n p s' hs' with h | h
      · exact Or.inl ⟨s', h, rfl, rfl⟩
      · exact Or.inr (by rw [h]; rfl)
    | updateStreamOp sid' p =>
      have h' : s' ∈ db.streams.map (fun s =>
          if s.id == sid' then
            { s with name := p.name, description := p.description,
                     port := p.port, mount_point := p.mount_point,
                     bitrate := p.bitrate, max_listeners := p.max_listeners,
                     format := p.format, auto_dj := p.auto_dj }
          else s) := hs'
      obtain ⟨s, hs, rfl⟩ := List.mem_map.mp h'
      by_cases h : s.id = sid'
      · exact Or.inl ⟨s, hs, by simp [h], by simp [h]⟩
      · exact Or.inl ⟨s, hs, by simp [h], by simp [h]⟩
    | deleteStreamOp sid' =>
      have h' : s' ∈ db.streams.filter (fun s => s.id != sid') := hs'
      exact Or.inl ⟨s', (List.mem_filter.mp h').1, rfl, rfl⟩
    | controlStreamOp sid' a' =>
      exact absurd rfl (hop sid' a')
    | generateBillOp cid =>
      rw [stepDb_generateBill_streams] at hs'
      exact Or.inl ⟨s', hs', rfl, rfl⟩

/-- Closed instance of spec2_c1: starting the single stopped stream of a
one-stream store yields a running stream, and starting an already-running
stream keeps it running. -/
theorem spec2_c1_witness :
    ({ mkStream "s1" "c1" StreamStatus.stopped with
        status := applyAction StreamAction.start StreamStatus.stopped } : Stream).status
      = StreamStatus.running
    ∧ applyAction StreamAction.start StreamStatus.running = StreamStatus.running := by
  constructor
  · exact (spec2_c1 ⟨[], [mkStream "s1" "c1" StreamStatus.stopped], []⟩ "s1"
      StreamAction.start).1 _ (by simp [controlStream, mkStream]) rfl
  · exact (spec2_c1 ⟨[], [mkStream "s1" "c1" StreamStatus.stopped], []⟩ "s1"
      StreamAction.start).2.2.1.1

theorem foldl_add_sum {α : Type} (g : α → ℚ) (l : List α) (init : ℚ) :
    l.foldl (fun s x => s + g x) init = init + (l.map g).sum := by
  induction l generalizing init with
  | nil => simp
  | cons x xs ih => simp [ih, add_assoc]

theorem length_filter_map_eq {α β : Type} (f : α → β) (p : β → Bool) (l : List α) :
    ((l.map f).filter p).length = (l.filter (fun x => p (f x))).length := by
  induction l with
  | nil => rfl
  | cons x xs ih =>
    cases h : p (f x) <;> simp [List.filter_cons, h, ih]

theorem latest_amount_of_short (m : List BillingRecord) (hm : m.length ≤ 1) :
    ((m.getLast?).map BillingRecord.amount).getD 0
      = (m.map BillingRecord.amount).sum := by
  match m with
  | [] => rfl
  | [b] => simp
  | b :: c :: rest => simp at hm

theorem sum_map_filter_split {α : Type} (f : α → ℚ) (p : α → Bool) (l : List α) :
    (l.map f).sum = ((l.filter p).map f).sum
      + ((l.filter (fun x => !(p x))).map f).sum := by
  induction l with
  | nil => simp
  | cons x xs ih =>
    cases h : p x <;> simp [List.filter_cons, h, ih] <;> ring

theorem sum_latest_eq_total (clients : List Client) :
    ∀ bills : List BillingRecord,
      clients.Pairwise (fun a b => a.id ≠ b.id) →
      (∀ b ∈ bills, ∃ c ∈ clients, b.client_id = c.id) →
      (∀ cid : String,
        (bills.filter (fun b => b.client_id == cid)).length ≤ 1) →
      (clients.map (fun c =>
        ((latestBill bills c.id).map BillingRecord.amount).getD 0)).sum
        = (bills.map BillingRecord.amount).sum := by
  induction clients with
  | nil =>
    intro bills _ hcov _
    have hnil : bills = [] := by
      cases bills with
      | nil => rfl
      | cons b bs =>
        obtain ⟨c, hc, -⟩ := hcov b (List.mem_cons_self b bs)
        exact absurd hc (List.not_mem_nil c)
    subst hnil
    rfl
  | cons c rest ih =>
    intro bills hids hcov hone
    rw [List.map_cons, List.sum_cons]
    have hhead : ((latestBill bills c.id).map BillingRecord.amount).getD 0
        = ((bills.filter (fun b => b.client_id == c.id)).map
            BillingRecord.amount).sum :=
      latest_amount_of_short _ (hone c.id)
    have hcid : ∀ c' ∈ rest, c.id ≠ c'.id :=
      fun c' hc' => List.rel_of_pairwise_cons hids hc'
    have hrw : ∀ c' ∈ rest,
        latestBill bills c'.id
          = latestBill (bills.filter (fun b => !(b.client_id == c.id))) c'.id := by
      intro c' hc'
      unfold latestBill
      rw [List.filter_filter]
      congr 1
      apply List.filter_congr
      intro b hb
      cases hbc : (b.client_id == c'.id) with
      | false => simp [hbc]
      | true =>
        have hb' : b.client_id = c'.id := by simpa using hbc
        have hne : (b.client_id == c.id) = false := by
          rw [hb']
          simp only [beq_eq_false_iff_ne, ne_eq]
          exact fun hcontra => (hcid c' hc') hcontra.symm
        simp [hbc, hne]
    have hmaprw : rest.map (fun c' =>
          ((latestBill bills c'.id).map BillingRecord.amount).getD 0)
        = rest.map (fun c' =>
          ((latestBill (bills.filter (fun b => !(b.client_id == c.id)))
            c'.id).map BillingRecord.amount).getD 0) :=
      List.map_congr_left (fun c' hc' => by rw [hrw c' hc'])
    have hcov' : ∀ b ∈ bills.filter (fun b => !(b.client_id == c.id)),
        ∃ c' ∈ rest, b.client_id = c'.id := by
      intro b hb
      have hb1 := List.mem_filter.mp hb
      obtain ⟨c'', hc'', hceq⟩ := hcov b hb1.1
      rcases List.mem_cons.mp hc'' with hcc | hcc
      · exfalso
        subst hcc
        have hb2 := hb1.2
        rw [show (b.client_id == c''.id) = true by simp [hceq]] at hb2
        simp at hb2
      · exact ⟨c'', hcc, hceq⟩
    have hone' : ∀ cid : String,
        ((bills.filter (fun b => !(b.client_id == c.id))).filter
          (fun b => b.client_id == cid)).length ≤ 1 := by
      intro cid
      exact le_trans
        (List.Sublist.length_le (List.Sublist.filter _ (List.filter_sublist bills)))
        (hone cid)
    rw [hhead, hmaprw, ih _ hids.of_cons hcov' hone']
    exact (sum_map_filter_split BillingRecord.amount
      (fun b => b.client_id == c.id) bills).symm

/-- Counterexample to C7 as stated: with one client holding two billing
records (amounts 10 and 20), the billing page displays 20 — the latest
amount — while the sum of all billing record amounts is 30. -/
theorem spec2_c7_counterexample :
    totalRevenue (billingRows ⟨[mkClient "c1" "A" "a@x.com" 1 10], [],
      [{ client_id := "c1", amount := 10, status := BillStatus.pending },
       { client_id := "c1", amount := 20, status := BillStatus.pending }]⟩)
    ≠ sumAllBillAmounts
      [{ client_id := "c1", amount := 10, status := BillStatus.pending },
       { client_id := "c1", amount := 20, status := BillStatus.pending }] := by
  simp [totalRevenue, billingRows, latestBill, sumAllBillAmounts, mkClient,
    List.filter]

/-- C7 (amended): the billing page computes total revenue as the sum over
clients of each client's latest billing amount (0 for a client with no
bills) and pending bills as the number of clients whose latest bill is
pending; this total equals the sum of all billing record amounts exactly in
the case that each client has at most one billing record (ids unique, every
record tied to a listed client). -/
theorem spec2_c7 (db : Db) :
    totalRevenue (billingRows db)
      = (db.clients.map (fun c =>
          ((latestBill db.bills c.id).map BillingRecord.amount).getD 0)).sum
    ∧ pendingBills (billingRows db)
      = (db.clients.filter (fun c =>
          match latestBill db.bills c.id with
          | some b => b.status == BillStatus.pending
          | none => false)).length
    ∧ ((db.clients.Pairwise fun a b => a.id ≠ b.id) →
        (∀ b ∈ db.bills, ∃ c ∈ db.clients, b.client_id = c.id) →
        (∀ cid : String,
          (db.bills.filter (fun b => b.client_id == cid)).length ≤ 1) →
        totalRevenue (billingRows db) = sumAllBillAmounts db.bills) := by
  have h1 : totalRevenue (billingRows db)
      = (db.clients.map (fun c =>
          ((latestBill db.bills c.id).map BillingRecord.amount).getD 0)).sum := by
    unfold totalRevenue billingRows
    rw [foldl_add_sum, zero_add, List.map_map]
    congr 1
    apply List.map_congr_left
    intro c hc
    cases h : latestBill db.bills c.id <;> simp [h, Function.comp]
  refine ⟨h1, ?_, ?_⟩
  · unfold pendingBills billingRows
    rw [length_filter_map_eq]
    congr 1
    apply List.filter_congr
    intro c hc
    cases h : latestBill db.bills c.id with
    | none => simp [h]
    | some b => cases hs : b.status <;> simp [h, hs]
  · intro hids hcov hone
    rw [h1]
    exact sum_latest_eq_total db.clients db.bills hids hcov hone

/-- Closed instance of spec2_c7: on a store where the single client has a
single billing record, the displayed total equals the sum of all record
amounts. -/
theorem spec2_c7_witness :
    totalRevenue (billingRows ⟨[mkClient "c1" "A" "a@x.com" 1 10], [],
      [{ client_id := "c1", amount := 10, status := BillStatus.pending }]⟩)
      = sumAllBillAmounts
        [{ client_id := "c1", amount := 10, status := BillStatus.pending }] := by
  exact (spec2_c7 ⟨[mkClient "c1" "A" "a@x.com" 1 10], [],
      [{ client_id := "c1", amount := 10, status := BillStatus.pending }]⟩).2.2
    (List.pairwise_singleton _ _)
    (by
      intro b hb
      simp only [List.mem_singleton] at hb
      subst hb
      exact ⟨mkClient "c1" "A" "a@x.com" 1 10, by simp, rfl⟩)
    (by
      intro cid
      simpa using List.length_filter_le (fun b : BillingRecord => b.client_id == cid)
        [{ client_id := "c1", amount := 10, status := BillStatus.pending }])

end RadioAdmin
